import Mathlib

/-!
SQLAir: a Lean shallow embedding of the concurrent CSV query engine implemented
in dataPopulate.cpp (SQLAir::selectRowProcess, selectQuery, updateRowProcess,
updateQuery, insertQuery, deleteQuery, clientThread, runServer, loadFromURL,
loadAndGet, saveQuery), together with theorems checking the natural-language
specification against it.

External collaborators (the CSV container, SQLAirBase::matches, the stream
insertion used for header lines, and the raw I/O) are modelled from the spec
where noted; everything else is translated from the source.
-/

namespace SQLAir

/-- Error values thrown by the engine (throw Exp(...) in the source), tagged
with the spec's error taxonomy (spec section 7). -/
inductive Err where
  | invalidColumn (name : String)
  | invalidQuery (msg : String)
  | loadFailed (msg : String)
  | notImplemented (msg : String)
  | noTableLoaded
  | outOfRange (msg : String)
deriving Repr, DecidableEq

/-- Decidable equality of results, for evaluating the model on concrete
inputs. -/
def exceptDecEq {ε α : Type} [DecidableEq ε] [DecidableEq α] :
    (a b : Except ε α) → Decidable (a = b)
  | Except.ok x, Except.ok y =>
    if h : x = y then Decidable.isTrue (by rw [h])
    else Decidable.isFalse (fun he => h (Except.ok.inj he))
  | Except.error x, Except.error y =>
    if h : x = y then Decidable.isTrue (by rw [h])
    else Decidable.isFalse (fun he => h (Except.error.inj he))
  | Except.ok _, Except.error _ => Decidable.isFalse (fun he => Except.noConfusion he)
  | Except.error _, Except.ok _ => Decidable.isFalse (fun he => Except.noConfusion he)

instance {ε α : Type} [DecidableEq ε] [DecidableEq α] : DecidableEq (Except ε α) :=
  exceptDecEq

/-- Condition-variable signals emitted by the engine: csvCondVar.notify_all in
updateQuery (line 230) and thrCond.notify_one in clientThread (line 281). -/
inductive Event where
  | notifyAll
  | notifyOne
deriving Repr, DecidableEq

/-- One row of the CSV container: an ordered sequence of cell strings. -/
structure Row where
  cells : List String
deriving Repr, DecidableEq

/-- The CSV container: a header of column names and an ordered list of rows. -/
structure CSV where
  columns : List String
  rows : List Row
deriving Repr, DecidableEq

/-- Spec section 3 invariant: column count of every row equals header column
count. -/
def CSV.wellFormed (csv : CSV) : Prop :=
  ∀ row ∈ csv.rows, row.cells.length = csv.columns.length

/-- Modelled from the spec: CSV::getColumnIndex of the external CSV container
scans the header left to right for a column name. -/
def colIndexOf (name : String) : List String → Option Nat
  | [] => none
  | c :: cs => if c == name then some 0 else (colIndexOf name cs).map (fun i => i + 1)

/-- Modelled from the spec: CSV::getColumnIndex; a column name not found in the
header signals InvalidColumn (spec sections 4.2 and 7). -/
def CSV.getColumnIndex (csv : CSV) (name : String) : Except Err Nat :=
  match colIndexOf name csv.columns with
  | some i => Except.ok i
  | none => Except.error (Err.invalidColumn name)

/-- CSV::getColumnNames of the external container: the header names. -/
def CSV.getColumnNames (csv : CSV) : List String := csv.columns

/-- Bounds-checked cell access, std::vector::at: out of range throws. -/
def Row.at (row : Row) (i : Nat) : Except Err String :=
  match row.cells.get? i with
  | some c => Except.ok c
  | none => Except.error (Err.outOfRange "row cell index out of range")

/-- Decimal digit accumulation over a character list; none on any non-digit. -/
def parseNatList : List Char → Nat → Option Nat
  | [], acc => some acc
  | c :: cs, acc =>
    if c.isDigit then parseNatList cs (acc * 10 + (c.toNat - 48)) else none

/-- Modelled from the spec (section 4.1): parsing a cell as a decimal integer
literal, with an optional leading minus sign. -/
def parseIntStr (s : String) : Option Int :=
  match s.data with
  | [] => none
  | '-' :: cs =>
    match cs with
    | [] => none
    | _ :: _ => (parseNatList cs 0).map (fun n => -(n : Int))
  | cs => (parseNatList cs 0).map (fun n => (n : Int))

/-- Modelled from the spec (section 4.1): comparison of two cell strings used
by the predicate matcher; numeric literals compare numerically when both sides
parse as numbers (modelled as decimal integers), otherwise lexicographically. -/
def cmpVals (a b : String) : Ordering :=
  match parseIntStr a, parseIntStr b with
  | some x, some y => compare x y
  | _, _ => compare a b

/-- Modelled from the spec: SQLAirBase::matches (external base class, spec
section 4.1): equality and ordering comparisons between a cell value and a
literal; a malformed operator signals InvalidQuery. -/
def SQLAirBase.matches (cell cond value : String) : Except Err Bool :=
  match cond with
  | "=" => Except.ok (cmpVals cell value == Ordering.eq)
  | "==" => Except.ok (cmpVals cell value == Ordering.eq)
  | "!=" => Except.ok (!(cmpVals cell value == Ordering.eq))
  | "<>" => Except.ok (!(cmpVals cell value == Ordering.eq))
  | "<" => Except.ok (cmpVals cell value == Ordering.lt)
  | ">" => Except.ok (cmpVals cell value == Ordering.gt)
  | "<=" => Except.ok (!(cmpVals cell value == Ordering.gt))
  | ">=" => Except.ok (!(cmpVals cell value == Ordering.lt))
  | _ => Except.error (Err.invalidQuery ("Invalid operator: " ++ cond))

/-- Evaluation of the optional where clause against one row, exactly as in
selectRowProcess (line 137) and updateRowProcess (lines 163-166): a whereColIdx
of -1 means no where clause (unconditional match); otherwise the cell at
whereColIdx is read under the row lock and handed to SQLAirBase::matches. Any
other negative index would convert to a huge size_t in the source and throw. -/
def rowMatches (whereColIdx : Int) (cond value : String) (row : Row) : Except Err Bool :=
  if whereColIdx == -1 then Except.ok true
  else if whereColIdx < 0 then Except.error (Err.outOfRange "negative column index")
  else match row.at whereColIdx.toNat with
    | Except.error e => Except.error e
    | Except.ok cell => SQLAirBase.matches cell cond value

/-- Boolean view of rowMatches, used on the specification side to describe the
set of matching rows; an erroring evaluation counts as no match. -/
def rowMatchesB (whereColIdx : Int) (cond value : String) (row : Row) : Bool :=
  match rowMatches whereColIdx cond value row with
  | Except.ok b => b
  | Except.error _ => false

/-- Tab-separated join of a list of strings. -/
def tabSep : List String → String
  | [] => ""
  | [c] => c
  | c :: cs => c ++ "\t" ++ tabSep cs

/-- Modelled from the spec (section 6): the stream insertion for a StrVec used
for the header line on line 204 prints the names tab-separated; std::endl adds
the newline. -/
def headerLine (cols : List String) : String := tabSep cols ++ "\n"

/-- Specification-side description of one projected cell: the cell of the row
under a named column (empty when the name or index is unresolvable; theorems
only use it where resolution succeeds). -/
def cellNamed (columns : List String) (row : Row) (c : String) : String :=
  match colIndexOf c columns with
  | some j => row.cells.getD j ""
  | none => ""

/-- Specification-side description of one result line: the projected cells of
a row, tab-delimited, plus the newline. -/
def projLine (columns cols : List String) (row : Row) : String :=
  tabSep (cols.map (cellNamed columns row)) ++ "\n"

/-- Concatenation of a list of result lines. -/
def concatLines : List String → String
  | [] => ""
  | l :: ls => l ++ concatLines ls

/-- Join of a list of strings where every element is preceded by the current
delimiter, which becomes a tab after the first element; mirrors the delimiter
handling of the projection loop and equals tabSep when started empty. -/
def tabPre (delim : String) : List String → String
  | [] => ""
  | c :: cs => delim ++ (c ++ tabPre "\t" cs)

/-- Readiness of one observed table snapshot for a scan: every row has the
header width and the where clause evaluates without error on every row. -/
def scanReady (columns : List String) (w : Int) (cond value : String) (s : List Row) : Prop :=
  (∀ row ∈ s, row.cells.length = columns.length)
  ∧ (∀ row ∈ s, ∃ b, rowMatches w cond value row = Except.ok b)

/-- The inner loop of SQLAir::selectRowProcess (lines 141-149): for a matching
row each projected column is resolved with getColumnIndex, its cell read under
the row lock and appended to the accumulated text after the current delimiter
(empty before the first cell, tab afterwards); a final newline ends the line.
An unknown column aborts the query with InvalidColumn (exception propagates). -/
def projectCells (csv : CSV) (row : Row) : List String → String → String → Except Err String
  | [], acc, _ => Except.ok (acc ++ "\n")
  | c :: cs, acc, delim =>
    match csv.getColumnIndex c with
    | Except.error e => Except.error e
    | Except.ok i =>
      match row.at i with
      | Except.error e => Except.error e
      | Except.ok cell => projectCells csv row cs (acc ++ (delim ++ cell)) "\t"

/-- SQLAir::selectRowProcess (lines 128-153): scan every row in order, lock it,
evaluate the optional where clause, and for matches append the projected
tab-delimited line to rowText and increment rowCount. -/
def selectRowProcess (csv : CSV) (colNames : List String) (whereColIdx : Int)
    (cond value : String) : List Row → String → Nat → Except Err (String × Nat)
  | [], rowText, rowCount => Except.ok (rowText, rowCount)
  | row :: rest, rowText, rowCount =>
    match rowMatches whereColIdx cond value row with
    | Except.error e => Except.error e
    | Except.ok false => selectRowProcess csv colNames whereColIdx cond value rest rowText rowCount
    | Except.ok true =>
      match projectCells csv row colNames "" "" with
      | Except.error e => Except.error e
      | Except.ok line =>
        selectRowProcess csv colNames whereColIdx cond value rest (rowText ++ line) (rowCount + 1)

/-- Wildcard handling of SQLAir::selectQuery line 183: only index 0 of the
requested column list is compared against the string "*"; on a match the whole
list is replaced by the table's column names. The source indexes position 0
unconditionally, so an empty request list is undefined behaviour there and is
excluded by hypotheses. -/
def selectCols (csv : CSV) (colNames : List String) : List String :=
  if colNames.head? == some "*" then csv.getColumnNames else colNames

/-- The wait loop of SQLAir::selectQuery (lines 194-203), with the condition
variable modelled by a trace of row snapshots: wakeups lists the contents of
the table observed at each wakeup of csvCondVar. A result of none means the
query is still blocked after the whole trace (the call has not returned).
rowText and rowCount accumulate across scans exactly as in the source. -/
def selectWaitLoop (columns cols : List String) (whereColIdx : Int) (cond value : String)
    (mustWait : Bool) : List (List Row) → String → Nat → Option (Except Err String)
  | wakeups, rowText, rowCount =>
    if rowCount == 0 && mustWait then
      match wakeups with
      | [] => none
      | s :: rest =>
        match selectRowProcess ⟨columns, s⟩ cols whereColIdx cond value s rowText rowCount with
        | Except.error e => some (Except.error e)
        | Except.ok (t, n) => selectWaitLoop columns cols whereColIdx cond value mustWait rest t n
    else
      some (Except.ok ((if rowCount != 0 then headerLine cols else "")
        ++ rowText ++ (toString rowCount ++ " row(s) selected.\n")))

/-- SQLAir::selectQuery (lines 179-206). The value inside some is the text the
call writes to os: an optional header line (only when rowCount is nonzero),
the accumulated row text, and the trailing count line; an error is the
exception the call throws. -/
def selectQuery (csv : CSV) (mustWait : Bool) (colNames : List String) (whereColIdx : Int)
    (cond value : String) (wakeups : List (List Row)) : Option (Except Err String) :=
  match selectRowProcess csv (selectCols csv colNames) whereColIdx cond value csv.rows "" 0 with
  | Except.error e => some (Except.error e)
  | Except.ok (t, n) =>
    selectWaitLoop csv.columns (selectCols csv colNames) whereColIdx cond value mustWait wakeups t n

/-- The cell-assignment loop of SQLAir::updateRowProcess (lines 168-171): for
each target column, values.at(i) is read (C++17 sequences the right operand of
the assignment first), the column resolved with getColumnIndex, and the row
cell at that index overwritten, in query order. An error stops the loop; cells
already written stay written, because the row is modified in place. -/
def setCells (columns : List String) : List String → List String → List String → List String × Option Err
  | cells, [], _ => (cells, none)
  | cells, _ :: _, [] => (cells, some (Err.outOfRange "update value index out of range"))
  | cells, c :: cs, v :: vs =>
    match colIndexOf c columns with
    | none => (cells, some (Err.invalidColumn c))
    | some j =>
      if j < cells.length then setCells columns (cells.set j v) cs vs
      else (cells, some (Err.outOfRange "row cell index out of range"))

/-- SQLAir::updateRowProcess (lines 156-175): scan rows in order under the row
lock, evaluate the optional where clause, overwrite the target cells of
matching rows and count them. The result is the rows as left in memory, the
final rowCount, and the first thrown error if any (later rows stay untouched
once an exception propagates). -/
def updateRows (columns : List String) (colNames values : List String) (whereColIdx : Int)
    (cond value : String) : List Row → Nat → List Row × Nat × Option Err
  | [], rowCount => ([], rowCount, none)
  | row :: rest, rowCount =>
    match rowMatches whereColIdx cond value row with
    | Except.error e => (row :: rest, rowCount, some e)
    | Except.ok false =>
      let r := updateRows columns colNames values whereColIdx cond value rest rowCount
      (row :: r.1, r.2)
    | Except.ok true =>
      match setCells columns row.cells colNames values with
      | (cells2, some e) => (Row.mk cells2 :: rest, rowCount, some e)
      | (cells2, none) =>
        let r := updateRows columns colNames values whereColIdx cond value rest (rowCount + 1)
        (Row.mk cells2 :: r.1, r.2)

/-- The wait loop of SQLAir::updateQuery (lines 218-228), with the condition
variable modelled by a wakeup trace as in selectWaitLoop, plus the epilogue of
lines 229-232: when the call returns, csvCondVar.notify_all is signalled
exactly when rowCount is nonzero, and the count line is written to os. A
thrown exception produces no output and no signal. none means still blocked. -/
def updateWaitLoop (columns : List String) (colNames values : List String) (whereColIdx : Int)
    (cond value : String) (mustWait : Bool) :
    List (List Row) → List Row → Nat → Option (List Row × List Event × Except Err String)
  | wakeups, rows, rowCount =>
    if rowCount == 0 && mustWait then
      match wakeups with
      | [] => none
      | s :: rest =>
        let r := updateRows columns colNames values whereColIdx cond value s rowCount
        match r.2.2 with
        | some e => some (r.1, [], Except.error e)
        | none => updateWaitLoop columns colNames values whereColIdx cond value mustWait rest r.1 r.2.1
    else
      some (rows, (if rowCount != 0 then [Event.notifyAll] else []),
        Except.ok (toString rowCount ++ " row(s) updated.\n"))

/-- SQLAir::updateQuery (lines 208-233). The value inside some is the rows as
left in memory, the condition-variable events emitted, and the text written to
os or the exception thrown. -/
def updateQuery (csv : CSV) (mustWait : Bool) (colNames values : List String) (whereColIdx : Int)
    (cond value : String) (wakeups : List (List Row)) :
    Option (List Row × List Event × Except Err String) :=
  let r := updateRows csv.columns colNames values whereColIdx cond value csv.rows 0
  match r.2.2 with
  | some e => some (r.1, [], Except.error e)
  | none => updateWaitLoop csv.columns colNames values whereColIdx cond value mustWait wakeups r.1 r.2.1

/-- SQLAir::insertQuery (lines 235-239): always throws, table untouched. -/
def insertQuery (csv : CSV) (mustWait : Bool) (colNames values : List String) :
    CSV × Except Err String :=
  (csv, Except.error (Err.notImplemented "insert is not yet implemented."))

/-- SQLAir::deleteQuery (lines 241-245): always throws, table untouched. -/
def deleteQuery (csv : CSV) (mustWait : Bool) (whereColIdx : Int) (cond value : String) :
    CSV × Except Err String :=
  (csv, Except.error (Err.notImplemented "delete is not yet implemented."))

/-- The table registry of SQLAir: the unordered_map inMemoryCSV (modelled as an
association list) and the most recently used identifier recentCSV, both
guarded by recentCSVMutex in the source. -/
structure Registry where
  inMemoryCSV : List (String × CSV)
  recentCSV : String
deriving Repr, DecidableEq

/-- Insertion into inMemoryCSV (operator[] followed by move on line 375):
replaces the entry when the key is present, appends otherwise. -/
def insertCSV : List (String × CSV) → String → CSV → List (String × CSV)
  | [], k, v => [(k, v)]
  | (k2, v2) :: rest, k, v =>
    if k2 == k then (k2, v) :: rest else (k2, v2) :: insertCSV rest k v

/-- SQLAir::loadAndGet (lines 339-378). The actual byte-level load (the
if-else on lines 356-367: loadFromURL for http URLs, CSV::load on an ifstream
otherwise, both of which perform I/O) is abstracted as the load argument,
returning the CSV a successful load produces or the error the load throws.
Note the order of operations in the source: recentCSV is overwritten inside
the first critical section (line 347), before the cache lookup and before any
load is attempted. -/
def loadAndGet (load : String → Except Err CSV) (reg : Registry) (fileOrURL : String) :
    Registry × Except Err CSV :=
  let fileOrURL2 := if fileOrURL.isEmpty then reg.recentCSV else fileOrURL
  let reg2 : Registry := { reg with recentCSV := fileOrURL2 }
  match reg2.inMemoryCSV.lookup fileOrURL2 with
  | some csv => (reg2, Except.ok csv)
  | none =>
    match load fileOrURL2 with
    | Except.error e => (reg2, Except.error e)
    | Except.ok csv =>
      ({ reg2 with inMemoryCSV := insertCSV reg2.inMemoryCSV fileOrURL2 csv }, Except.ok csv)

/-- Modelled from the spec: loading a local file with CSV::load (sections 4.3
and 7); a file that cannot be opened or parsed yields LoadFailed. The files
argument enumerates the readable well-formed CSV files as parsed tables. -/
def localLoad (files : List (String × CSV)) (path : String) : Except Err CSV :=
  match files.lookup path with
  | some csv => Except.ok csv
  | none => Except.error (Err.loadFailed ("unable to open " ++ path))

/-- The remote server's answer as seen by SQLAir::loadFromURL: whether the
connection succeeded, the status line, and the result of CSV::load on the
remaining payload (CSV::load is external and modelled from the spec). -/
structure HttpResponse where
  good : Bool
  status : String
  payload : Except Err CSV

/-- Prefix test on character lists (std::string comparison semantics). -/
def listHasPrefix : List Char → List Char → Bool
  | _, [] => true
  | [], _ :: _ => false
  | a :: as, b :: bs => a == b && listHasPrefix as bs

/-- Substring search on character lists (std::string::find semantics). -/
def listContainsSub : List Char → List Char → Bool
  | [], sub => listHasPrefix [] sub
  | a :: as, sub => listHasPrefix (a :: as) sub || listContainsSub as sub

/-- Substring test modelling status.find("200") != std::string::npos. -/
def containsSub (s sub : String) : Bool := listContainsSub s.data sub.data

/-- Prefix test modelling s.find("http://") == 0 in the source. -/
def strStartsWith (s pre : String) : Bool := listHasPrefix s.data pre.data

/-- A whitespace character, as recognised by Helper::trim. -/
def isWS (c : Char) : Bool := c == ' ' || c == '\t' || c == '\n' || c == '\r'

/-- Leading-whitespace removal on character lists. -/
def dropWS : List Char → List Char
  | [] => []
  | c :: cs => if isWS c then dropWS cs else c :: cs

/-- Modelled from the spec: Helper::trim (external helper) strips leading and
trailing whitespace from a string. -/
def strTrim (s : String) : String :=
  String.mk (((dropWS ((dropWS s.data).reverse)).reverse))

/-- SQLAir::loadFromURL (lines 311-337): a failed connection or a status line
not containing 200 throws; otherwise CSV::load parses the payload. -/
def loadFromURL (hostName port path : String) (resp : HttpResponse) : Except Err CSV :=
  if !resp.good then
    Except.error (Err.loadFailed ("Unable to connect to " ++ hostName ++ " at port " ++ port))
  else if !(containsSub resp.status "200") then
    Except.error (Err.loadFailed ("Error (" ++ strTrim resp.status ++ ") getting " ++ path
      ++ " from " ++ hostName ++ " at port " ++ port))
  else resp.payload

/-- SQLAir::saveQuery (lines 381-390): refuses an empty or http recentCSV with
NotImplemented, otherwise writes the cached table back to its path (the write
is returned as a (path, table) pair) and confirms on os; at() on a missing
cache entry throws out_of_range. -/
def saveQuery (reg : Registry) : Registry × List (String × CSV) × Except Err String :=
  if reg.recentCSV.isEmpty || strStartsWith reg.recentCSV "http://" then
    (reg, [], Except.error (Err.notImplemented "Saving CSV to an URL using POST is not implemented"))
  else
    match reg.inMemoryCSV.lookup reg.recentCSV with
    | none => (reg, [], Except.error (Err.outOfRange "inMemoryCSV.at: key not found"))
    | some csv => (reg, [(reg.recentCSV, csv)], Except.ok (reg.recentCSV ++ " saved.\n"))

/-- SQLAir::clientThread epilogue (lines 279-281): every worker, on completion
of either branch and whether or not the query raised a caught error (the ok
flag records the outcome), decrements numThreads and signals one waiter on
thrCond. -/
def clientThreadFinish (ok : Bool) (numThreads : Nat) : Nat × List Event :=
  (numThreads - 1, [Event.notifyOne])

/-- One transition of the dispatcher counter (SQLAir::runServer lines 286-307
together with the worker epilogue): accept models the acceptance of a new
connection, allowed while numThreads is at most maxThr (the predicate wait on
line 291-292) and followed by the increment on line 305; finish models a
worker completing and decrementing the counter. -/
inductive ServerStep (maxThr : Nat) : Nat → Nat → Prop where
  | accept : ∀ n, n ≤ maxThr → ServerStep maxThr n (n + 1)
  | finish : ∀ n, 0 < n → ServerStep maxThr n (n - 1)

/-- Counter values reachable from a server started with no in-flight workers. -/
inductive ServerReachable (maxThr : Nat) : Nat → Prop where
  | init : ServerReachable maxThr 0
  | step : ∀ n n2, ServerReachable maxThr n → ServerStep maxThr n n2 → ServerReachable maxThr n2

/-! Helper lemmas about the header scan. -/

theorem colIndexOf_lt_length {name : String} :
    ∀ {l : List String} {i : Nat}, colIndexOf name l = some i → i < l.length := by
  intro l
  induction l with
  | nil => intro i h; simp [colIndexOf] at h
  | cons c cs ih =>
    intro i h
    unfold colIndexOf at h
    by_cases hc : (c == name) = true
    · rw [if_pos hc] at h
      cases h
      simp
    · rw [if_neg hc] at h
      rw [Option.map_eq_some'] at h
      obtain ⟨j, hj, rfl⟩ := h
      have := ih hj
      simpa using Nat.succ_lt_succ this

theorem colIndexOf_get {name : String} :
    ∀ {l : List String} {i : Nat}, colIndexOf name l = some i → l.get? i = some name := by
  intro l
  induction l with
  | nil => intro i h; simp [colIndexOf] at h
  | cons c cs ih =>
    intro i h
    unfold colIndexOf at h
    by_cases hc : (c == name) = true
    · rw [if_pos hc] at h
      cases h
      simp [eq_of_beq hc]
    · rw [if_neg hc] at h
      rw [Option.map_eq_some'] at h
      obtain ⟨j, hj, rfl⟩ := h
      simpa using ih hj

theorem colIndexOf_of_mem {name : String} :
    ∀ {l : List String}, name ∈ l → ∃ i, colIndexOf name l = some i := by
  intro l
  induction l with
  | nil => intro h; simp at h
  | cons c cs ih =>
    intro h
    unfold colIndexOf
    by_cases hc : (c == name) = true
    · exact ⟨0, if_pos hc⟩
    · have hne : c ≠ name := fun he => hc (by simp [he])
      have hmem : name ∈ cs := by
        cases List.mem_cons.mp h with
        | inl he => exact absurd he.symm hne
        | inr hm => exact hm
      obtain ⟨j, hj⟩ := ih hmem
      exact ⟨j + 1, by rw [if_neg hc, hj]; rfl⟩

/-! Helper lemmas about the registry map. -/

theorem insertCSV_lookup_self (k : String) (v : CSV) :
    ∀ m : List (String × CSV), (insertCSV m k v).lookup k = some v := by
  intro m
  induction m with
  | nil => simp [insertCSV, List.lookup]
  | cons p rest ih =>
    obtain ⟨k2, v2⟩ := p
    by_cases h : (k2 == k) = true
    · have : k2 = k := eq_of_beq h
      subst this
      simp [insertCSV, List.lookup]
    · have hne : ¬(k == k2) = true := fun he => h (by simp [eq_of_beq he])
      simp only [insertCSV, if_neg h, List.lookup]
      rw [Bool.of_not_eq_true hne]
      exact ih

/-- Claim C9: insertQuery and deleteQuery signal NotImplemented for every
input, saveQuery signals NotImplemented for every remote (http) identifier,
and in all three cases the in-memory table data is left unchanged (the table
and registry come back untouched and no file write is produced). -/
theorem notImplemented_ops :
    (∀ csv mw cn vs, insertQuery csv mw cn vs =
      (csv, Except.error (Err.notImplemented "insert is not yet implemented.")))
    ∧ (∀ csv mw w c v, deleteQuery csv mw w c v =
      (csv, Except.error (Err.notImplemented "delete is not yet implemented.")))
    ∧ (∀ reg : Registry, strStartsWith reg.recentCSV "http://" = true →
      saveQuery reg = (reg, [], Except.error
        (Err.notImplemented "Saving CSV to an URL using POST is not implemented"))) := by
  refine ⟨fun _ _ _ _ => rfl, fun _ _ _ _ _ => rfl, fun reg h => ?_⟩
  simp [saveQuery, h]

/-- Witness for claim C9 at a concrete remote identifier. -/
theorem notImplemented_ops_witness :
    saveQuery ⟨[], "http://data.com/test.csv"⟩ =
      (⟨[], "http://data.com/test.csv"⟩, [], Except.error
        (Err.notImplemented "Saving CSV to an URL using POST is not implemented")) :=
  notImplemented_ops.2.2 ⟨[], "http://data.com/test.csv"⟩ (by decide)

/-- Claim C5 counterexample: with maximum concurrency 1 the counter value 2 is
reachable, because runServer admits a new connection already while numThreads
equals maxThr (the wait predicate on line 292 is numThreads <= maxThr) and then
increments the counter — two workers in flight exceed the configured maximum
of one. -/
theorem admission_counterexample : ServerReachable 1 2 ∧ ¬(2 ≤ 1) :=
  ⟨ServerReachable.step 1 2
      (ServerReachable.step 0 1 ServerReachable.init (ServerStep.accept 0 (by decide)))
      (ServerStep.accept 1 (by decide)),
   by decide⟩

/-- Claim C5 amended: the dispatcher admits a new connection only while the
in-flight counter is at most maxThr, hence at most maxThr + 1 workers are ever
in flight simultaneously; and every worker, on completion and regardless of
success or failure, decrements the shared counter and signals one waiter on
the admission condition variable. -/
theorem admission_bound_amended :
    (∀ maxThr n, ServerReachable maxThr n → n ≤ maxThr + 1)
    ∧ (∀ ok n, clientThreadFinish ok n = (n - 1, [Event.notifyOne])) := by
  refine ⟨fun maxThr n h => ?_, fun _ _ => rfl⟩
  induction h with
  | init => omega
  | step n n2 _ hstep ih =>
    cases hstep with
    | accept hle => omega
    | finish hpos => omega

/-- Witness for claim C5 amended: the bound evaluated on a concrete reachable
state. -/
theorem admission_bound_amended_witness : 2 ≤ 1 + 1 :=
  admission_bound_amended.1 1 2
    (ServerReachable.step 1 2
      (ServerReachable.step 0 1 ServerReachable.init (ServerStep.accept 0 (by decide)))
      (ServerStep.accept 1 (by decide)))

/-- Claim C6 counterexample: resolving the missing identifier bad.csv on a
registry whose most recently used identifier is old.csv fails the load and
inserts nothing, yet the resulting registry records bad.csv as most recently
used — the registry state is not left unchanged. -/
theorem loadFail_registry_counterexample :
    loadAndGet (localLoad []) ⟨[], "old.csv"⟩ "bad.csv" =
      (⟨[], "bad.csv"⟩, Except.error (Err.loadFailed "unable to open bad.csv"))
    ∧ ("bad.csv" : String) ≠ "old.csv" :=
  ⟨rfl, by decide⟩

/-- Claim C6 amended: for every identifier whose load fails, loadAndGet
propagates the failure as an error and inserts no table into the cache, but
the recorded most recently used identifier has already been overwritten with
the requested identifier (line 347) before the load was attempted, so it does
change on failure; and loadFromURL turns every connected response whose status
line lacks 200 into a LoadFailed-style error. -/
theorem loadFail_registry_amended :
    (∀ (load : String → Except Err CSV) (reg : Registry) (id : String) (e : Err),
      id.isEmpty = false → reg.inMemoryCSV.lookup id = none → load id = Except.error e →
      loadAndGet load reg id = ({ reg with recentCSV := id }, Except.error e))
    ∧ (∀ (hostName port path : String) (resp : HttpResponse),
      resp.good = true → containsSub resp.status "200" = false →
      loadFromURL hostName port path resp = Except.error (Err.loadFailed
        ("Error (" ++ strTrim resp.status ++ ") getting " ++ path
          ++ " from " ++ hostName ++ " at port " ++ port))) := by
  constructor
  · intro load reg id e hne hmiss hload
    simp [loadAndGet, hne, hmiss, hload]
  · intro hostName port path resp hgood hstatus
    simp [loadFromURL, hgood, hstatus]

/-- Witness for claim C6 amended at concrete inputs. -/
theorem loadFail_registry_amended_witness :
    loadAndGet (localLoad []) ⟨[], "old.csv"⟩ "bad.csv" =
      ({ inMemoryCSV := [], recentCSV := "bad.csv" },
        Except.error (Err.loadFailed "unable to open bad.csv"))
    ∧ loadFromURL "data.com" "80" "/t.csv" ⟨true, "HTTP/1.1 404 Not Found", Except.ok ⟨[], []⟩⟩ =
      Except.error (Err.loadFailed
        "Error (HTTP/1.1 404 Not Found) getting /t.csv from data.com at port 80") :=
  ⟨loadFail_registry_amended.1 (localLoad []) ⟨[], "old.csv"⟩ "bad.csv"
      (Err.loadFailed "unable to open bad.csv") rfl rfl rfl,
   loadFail_registry_amended.2 "data.com" "80" "/t.csv"
      ⟨true, "HTTP/1.1 404 Not Found", Except.ok ⟨[], []⟩⟩ rfl rfl⟩

/-- Claim C7 counterexample: on a registry that never recorded an identifier
(recentCSV empty, empty cache), resolving the empty identifier does not signal
NoTableLoaded — the code simply tries to load the empty path itself and the
resulting load failure propagates. -/
theorem resolve_empty_counterexample :
    (loadAndGet (localLoad []) ⟨[], ""⟩ "").2 = Except.error (Err.loadFailed "unable to open ")
    ∧ Err.loadFailed "unable to open " ≠ Err.noTableLoaded :=
  ⟨rfl, by decide⟩

/-- Claim C7 amended: the empty identifier is substituted with the recorded
most recently used identifier, so after a prior successful resolve of X both
an empty resolve and a resolve of X return the same cached table and leave the
registry unchanged; when no identifier has ever been recorded, the empty
identifier itself is treated as the source and the attempted load's failure
propagates unchanged (there is no dedicated NoTableLoaded signal in the code). -/
theorem resolve_empty_amended :
    (∀ (load : String → Except Err CSV) (reg : Registry) (X : String)
        (reg2 : Registry) (T : CSV),
      X.isEmpty = false → loadAndGet load reg X = (reg2, Except.ok T) →
      loadAndGet load reg2 "" = (reg2, Except.ok T)
        ∧ loadAndGet load reg2 X = (reg2, Except.ok T))
    ∧ (∀ (load : String → Except Err CSV) (reg : Registry) (e : Err),
      reg.recentCSV = "" → reg.inMemoryCSV.lookup "" = none → load "" = Except.error e →
      loadAndGet load reg "" = ({ reg with recentCSV := "" }, Except.error e)) := by
  constructor
  · intro load reg X reg2 T hne h
    have hprops : reg2.recentCSV = X ∧ reg2.inMemoryCSV.lookup X = some T := by
      unfold loadAndGet at h
      rw [if_neg (by simp [hne])] at h
      dsimp only at h
      cases hlk : List.lookup X reg.inMemoryCSV with
      | some csv =>
        rw [hlk] at h
        have h1 : ({ reg with recentCSV := X } : Registry) = reg2 := congrArg Prod.fst h
        have h2 : (Except.ok csv : Except Err CSV) = Except.ok T := congrArg Prod.snd h
        injection h2 with h2
        subst h2
        rw [← h1]
        exact ⟨rfl, hlk⟩
      | none =>
        rw [hlk] at h
        cases hld : load X with
        | error e =>
          rw [hld] at h
          have h2 : (Except.error e : Except Err CSV) = Except.ok T := congrArg Prod.snd h
          exact absurd h2 (by simp)
        | ok csv =>
          rw [hld] at h
          have h1 : Registry.mk (insertCSV reg.inMemoryCSV X csv) X = reg2 :=
            congrArg Prod.fst h
          have h2 : (Except.ok csv : Except Err CSV) = Except.ok T := congrArg Prod.snd h
          injection h2 with h2
          subst h2
          rw [← h1]
          exact ⟨rfl, insertCSV_lookup_self X csv reg.inMemoryCSV⟩
    obtain ⟨hrec, hlk⟩ := hprops
    have heta : ({ reg2 with recentCSV := X } : Registry) = reg2 := by
      cases reg2 with
      | mk m r =>
        dsimp only at hrec ⊢
        rw [hrec]
    have hE : ("" : String).isEmpty = true := rfl
    constructor
    · simp [loadAndGet, hE, hrec, hlk, heta]
    · simp [loadAndGet, hne, hrec, hlk, heta]
  · intro load reg e hrec hmiss hload
    have hE : ("" : String).isEmpty = true := rfl
    simp [loadAndGet, hE, hrec, hmiss, hload]

/-- Witness for claim C7 amended: a concrete successful resolve of a.csv
followed by a resolve of the empty identifier and a repeated resolve of a.csv,
all returning the same cached table. -/
theorem resolve_empty_amended_witness :
    loadAndGet (localLoad [("a.csv", CSV.mk ["A"] [Row.mk ["x"]])])
        ⟨[("a.csv", CSV.mk ["A"] [Row.mk ["x"]])], "a.csv"⟩ "" =
      (⟨[("a.csv", CSV.mk ["A"] [Row.mk ["x"]])], "a.csv"⟩,
        Except.ok (CSV.mk ["A"] [Row.mk ["x"]]))
    ∧ loadAndGet (localLoad [("a.csv", CSV.mk ["A"] [Row.mk ["x"]])])
        ⟨[("a.csv", CSV.mk ["A"] [Row.mk ["x"]])], "a.csv"⟩ "a.csv" =
      (⟨[("a.csv", CSV.mk ["A"] [Row.mk ["x"]])], "a.csv"⟩,
        Except.ok (CSV.mk ["A"] [Row.mk ["x"]])) :=
  resolve_empty_amended.1 (localLoad [("a.csv", CSV.mk ["A"] [Row.mk ["x"]])])
    ⟨[], ""⟩ "a.csv" ⟨[("a.csv", CSV.mk ["A"] [Row.mk ["x"]])], "a.csv"⟩
    (CSV.mk ["A"] [Row.mk ["x"]]) rfl rfl

/-- Claim C10: wildcard expansion in selectQuery happens exactly when the
first element of the requested list is "*" (the whole list is then replaced by
the table's column names, and replacing the list does not change the query);
with any other first element no expansion happens, and a "*" elsewhere is
resolved like any other name, signalling InvalidColumn when absent from the
header. -/
theorem wildcard_first_only :
    (∀ (csv : CSV) (colNames : List String),
      colNames.head? = some "*" → selectCols csv colNames = csv.columns)
    ∧ (∀ (csv : CSV) (colNames : List String) (c : String),
      colNames.head? = some c → c ≠ "*" → selectCols csv colNames = colNames)
    ∧ (∀ csv : CSV, colIndexOf "*" csv.columns = none →
      csv.getColumnIndex "*" = Except.error (Err.invalidColumn "*"))
    ∧ (∀ (csv : CSV) (mw : Bool) (colNames : List String) (w : Int)
        (cond value : String) (tr : List (List Row)),
      colNames.head? = some "*" →
      selectQuery csv mw colNames w cond value tr =
        selectQuery csv mw csv.columns w cond value tr) := by
  have hstar : ∀ (csv : CSV) (colNames : List String),
      colNames.head? = some "*" → selectCols csv colNames = csv.columns := by
    intro csv colNames h
    simp [selectCols, h, CSV.getColumnNames]
  have hself : ∀ csv : CSV, selectCols csv csv.columns = csv.columns := by
    intro csv
    simp [selectCols, CSV.getColumnNames]
  refine ⟨hstar, ?_, ?_, ?_⟩
  · intro csv colNames c h hc
    simp [selectCols, h, hc]
  · intro csv h
    simp [CSV.getColumnIndex, h]
  · intro csv mw colNames w cond value tr h
    unfold selectQuery
    rw [hstar csv colNames h, hself csv]

/-! Helper lemmas about tab-separated joins and list access. -/

theorem tabPre_tab : ∀ (cs : List String) (c : String),
    tabPre "\t" (c :: cs) = "\t" ++ tabSep (c :: cs) := by
  intro cs
  induction cs with
  | nil => intro c; simp [tabPre, tabSep, String.append_empty]
  | cons c2 cs2 ih =>
    intro c
    rw [tabPre, ih c2]
    simp [tabSep, String.append_assoc]

theorem tabPre_empty : ∀ l : List String, tabPre "" l = tabSep l := by
  intro l
  cases l with
  | nil => rfl
  | cons c cs =>
    cases cs with
    | nil => simp [tabPre, tabSep, String.append_empty, String.empty_append]
    | cons c2 cs2 =>
      rw [tabPre, tabPre_tab cs2 c2]
      simp [tabSep, String.empty_append, String.append_assoc]

theorem get?_getD {α : Type} : ∀ (l : List α) (j : Nat) (d : α), j < l.length →
    l.get? j = some (l.getD j d) := by
  intro l
  induction l with
  | nil => intro j d h; simp at h
  | cons a as ih =>
    intro j d h
    cases j with
    | zero => rfl
    | succ n => exact ih n d (by simpa using h)

/-! Helper lemmas about the projection and the scan of selectRowProcess. -/

theorem projectCells_ok (csv : CSV) (row : Row) :
    ∀ (cols : List String) (acc delim : String),
    (∀ c ∈ cols, ∃ j, colIndexOf c csv.columns = some j ∧ j < row.cells.length) →
    projectCells csv row cols acc delim =
      Except.ok (acc ++ (tabPre delim (cols.map (cellNamed csv.columns row)) ++ "\n")) := by
  intro cols
  induction cols with
  | nil =>
    intro acc delim h
    simp [projectCells, tabPre, String.empty_append]
  | cons c cs ih =>
    intro acc delim h
    obtain ⟨j, hj, hlt⟩ := h c (by simp)
    have hget : row.cells.get? j = some (row.cells.getD j "") := get?_getD row.cells j "" hlt
    have hcn : cellNamed csv.columns row c = row.cells.getD j "" := by simp [cellNamed, hj]
    rw [projectCells, CSV.getColumnIndex, hj]
    dsimp only
    rw [Row.at, hget]
    dsimp only
    rw [ih (acc ++ (delim ++ row.cells.getD j "")) "\t"
      (fun c2 hc2 => h c2 (by simp [hc2]))]
    simp [tabPre, hcn, String.append_assoc]

theorem projectCells_projLine (csv : CSV) (row : Row) (cols : List String)
    (h : ∀ c ∈ cols, ∃ j, colIndexOf c csv.columns = some j ∧ j < row.cells.length) :
    projectCells csv row cols "" "" = Except.ok (projLine csv.columns cols row) := by
  rw [projectCells_ok csv row cols "" "" h]
  simp [projLine, tabPre_empty, String.empty_append]

theorem selectRowProcess_ok (csv : CSV) (cols : List String) (w : Int) (cond value : String) :
    ∀ (rows : List Row) (text : String) (count : Nat),
    (∀ row ∈ rows, ∃ b, rowMatches w cond value row = Except.ok b) →
    (∀ row ∈ rows, rowMatchesB w cond value row = true →
      projectCells csv row cols "" "" = Except.ok (projLine csv.columns cols row)) →
    selectRowProcess csv cols w cond value rows text count =
      Except.ok (text ++ concatLines ((rows.filter (rowMatchesB w cond value)).map
          (projLine csv.columns cols)),
        count + (rows.filter (rowMatchesB w cond value)).length) := by
  intro rows
  induction rows with
  | nil =>
    intro text count hw hp
    simp [selectRowProcess, concatLines, String.append_empty]
  | cons row rest ih =>
    intro text count hw hp
    obtain ⟨b, hb⟩ := hw row (by simp)
    have hB : rowMatchesB w cond value row = b := by simp [rowMatchesB, hb]
    cases b with
    | false =>
      rw [selectRowProcess, hb]
      dsimp only
      rw [ih text count (fun r hr => hw r (by simp [hr])) (fun r hr hm => hp r (by simp [hr]) hm)]
      simp [List.filter_cons, hB]
    | true =>
      have hproj := hp row (by simp) hB
      rw [selectRowProcess, hb]
      dsimp only
      rw [hproj]
      dsimp only
      rw [ih (text ++ projLine csv.columns cols row) (count + 1)
        (fun r hr => hw r (by simp [hr])) (fun r hr hm => hp r (by simp [hr]) hm)]
      simp only [List.filter_cons, hB, if_true, List.map_cons, List.length_cons,
        Except.ok.injEq, Prod.mk.injEq]
      constructor
      · simp [concatLines, String.append_assoc]
      · omega

/-- Claim C1: for every table, projected column list and optional where
clause, selectQuery invoked with wait false writes exactly the rows satisfying
the predicate, in table order, each as one tab-delimited line of the projected
cells; the column header line is written exactly when at least one row
matched; the trailing count line is always written with the number of matching
rows; and the call returns this output for every wakeup trace without
consuming any wakeup — it never blocks. -/
theorem selectQuery_nowait_exact (csv : CSV) (colNames : List String) (w : Int)
    (cond value : String) (wakeups : List (List Row))
    (hne : colNames ≠ [])
    (hcols : ∀ c ∈ selectCols csv colNames, c ∈ csv.columns)
    (hready : scanReady csv.columns w cond value csv.rows) :
    selectQuery csv false colNames w cond value wakeups =
      some (Except.ok (
        (if (csv.rows.filter (rowMatchesB w cond value)).length != 0
          then headerLine (selectCols csv colNames) else "")
        ++ concatLines ((csv.rows.filter (rowMatchesB w cond value)).map
            (projLine csv.columns (selectCols csv colNames)))
        ++ (toString (csv.rows.filter (rowMatchesB w cond value)).length
            ++ " row(s) selected.\n"))) := by
  obtain ⟨hwf, hw⟩ := hready
  have hp : ∀ row ∈ csv.rows, rowMatchesB w cond value row = true →
      projectCells csv row (selectCols csv colNames) "" "" =
        Except.ok (projLine csv.columns (selectCols csv colNames) row) := by
    intro row hr _
    apply projectCells_projLine
    intro c hc
    obtain ⟨j, hj⟩ := colIndexOf_of_mem (hcols c hc)
    exact ⟨j, hj, by rw [hwf row hr]; exact colIndexOf_lt_length hj⟩
  rw [selectQuery,
    selectRowProcess_ok csv (selectCols csv colNames) w cond value csv.rows "" 0 hw hp]
  dsimp only
  rw [selectWaitLoop.eq_def]
  simp [String.empty_append, Nat.zero_add, Bool.and_false]

/-- Witness for claim C1: the worked example of spec section 8. -/
theorem selectQuery_nowait_exact_witness :
    selectQuery (CSV.mk ["Name", "Age"] [Row.mk ["Alice", "30"], Row.mk ["Bob", "25"]])
        false ["Name"] 1 ">" "26" [] =
      some (Except.ok "Name\nAlice\n1 row(s) selected.\n") := by
  have h := selectQuery_nowait_exact
    (CSV.mk ["Name", "Age"] [Row.mk ["Alice", "30"], Row.mk ["Bob", "25"]])
    ["Name"] 1 ">" "26" [] (by simp) (by decide)
    ⟨by decide, by
      intro row hr
      fin_cases hr
      · exact ⟨true, rfl⟩
      · exact ⟨false, rfl⟩⟩
  exact h.trans (by rfl)

/-! Helper lemmas about the wait loop of selectQuery. -/

theorem selectWaitLoop_skip (columns cols : List String) (w : Int) (cond value : String) :
    ∀ (pre rest : List (List Row)) (text : String),
    (∀ s ∈ pre, scanReady columns w cond value s
      ∧ s.filter (rowMatchesB w cond value) = []) →
    selectWaitLoop columns cols w cond value true (pre ++ rest) text 0 =
      selectWaitLoop columns cols w cond value true rest text 0 := by
  intro pre
  induction pre with
  | nil => intro rest text h; rw [List.nil_append]
  | cons s pre2 ih =>
    intro rest text h
    obtain ⟨⟨hwf, hw⟩, hfilter⟩ := h s (by simp)
    have hp : ∀ row ∈ s, rowMatchesB w cond value row = true →
        projectCells ⟨columns, s⟩ row cols "" "" = Except.ok (projLine columns cols row) := by
      intro row hr hm
      exact absurd hm (by simpa using List.filter_eq_nil_iff.mp hfilter row hr)
    have hscan : selectRowProcess ⟨columns, s⟩ cols w cond value s text 0 =
        Except.ok (text, 0) := by
      rw [selectRowProcess_ok ⟨columns, s⟩ cols w cond value s text 0 hw hp, hfilter]
      simp [concatLines, String.append_empty]
    rw [List.cons_append, selectWaitLoop.eq_def]
    simp only [beq_self_eq_true, Bool.and_true, if_true]
    rw [hscan]
    exact ih rest text (fun s2 hs2 => h s2 (by simp [hs2]))

theorem selectWaitLoop_none (columns cols : List String) (w : Int) (cond value : String) :
    ∀ (wakeups : List (List Row)) (text : String),
    (∀ s ∈ wakeups, scanReady columns w cond value s
      ∧ s.filter (rowMatchesB w cond value) = []) →
    selectWaitLoop columns cols w cond value true wakeups text 0 = none := by
  intro wakeups text h
  have h2 := selectWaitLoop_skip columns cols w cond value wakeups [] text h
  rw [List.append_nil] at h2
  rw [h2]
  rfl

/-- Claim C3: a selectQuery issued with wait true while zero rows satisfy the
predicate does not return as long as every observed wakeup state still has no
matching row (the blocking on the table's condition variable is modelled by
the trace of row snapshots seen at each wakeup); it re-scans the table on each
wakeup and returns exactly the matching rows of the first woken state in which
at least one row satisfies the predicate, as header line, projected rows and
count line. -/
theorem selectQuery_wait_semantics (csv : CSV) (colNames : List String) (w : Int)
    (cond value : String)
    (hne : colNames ≠ [])
    (hcols : ∀ c ∈ selectCols csv colNames, c ∈ csv.columns)
    (hready : scanReady csv.columns w cond value csv.rows)
    (h0 : csv.rows.filter (rowMatchesB w cond value) = []) :
    (∀ wakeups, (∀ s ∈ wakeups, scanReady csv.columns w cond value s
        ∧ s.filter (rowMatchesB w cond value) = []) →
      selectQuery csv true colNames w cond value wakeups = none)
    ∧ (∀ pre sk post,
      (∀ s ∈ pre, scanReady csv.columns w cond value s
        ∧ s.filter (rowMatchesB w cond value) = []) →
      scanReady csv.columns w cond value sk →
      sk.filter (rowMatchesB w cond value) ≠ [] →
      selectQuery csv true colNames w cond value (pre ++ sk :: post) =
        some (Except.ok (
          headerLine (selectCols csv colNames)
          ++ concatLines ((sk.filter (rowMatchesB w cond value)).map
              (projLine csv.columns (selectCols csv colNames)))
          ++ (toString (sk.filter (rowMatchesB w cond value)).length
              ++ " row(s) selected.\n")))) := by
  obtain ⟨hwf, hw⟩ := hready
  have hp0 : ∀ row ∈ csv.rows, rowMatchesB w cond value row = true →
      projectCells csv row (selectCols csv colNames) "" "" =
        Except.ok (projLine csv.columns (selectCols csv colNames) row) := by
    intro row hr hm
    exact absurd hm (by simpa using List.filter_eq_nil_iff.mp h0 row hr)
  have hscan0 : selectRowProcess csv (selectCols csv colNames) w cond value csv.rows "" 0 =
      Except.ok ("", 0) := by
    rw [selectRowProcess_ok csv (selectCols csv colNames) w cond value csv.rows "" 0 hw hp0, h0]
    simp [concatLines, String.append_empty]
  constructor
  · intro wakeups h
    rw [selectQuery, hscan0]
    exact selectWaitLoop_none csv.columns (selectCols csv colNames) w cond value wakeups "" h
  · intro pre sk post hpre hsk hnem
    obtain ⟨hwfk, hwk⟩ := hsk
    have hpk : ∀ row ∈ sk, rowMatchesB w cond value row = true →
        projectCells ⟨csv.columns, sk⟩ row (selectCols csv colNames) "" "" =
          Except.ok (projLine csv.columns (selectCols csv colNames) row) := by
      intro row hr _
      apply projectCells_projLine
      intro c hc
      obtain ⟨j, hj⟩ := colIndexOf_of_mem (hcols c hc)
      exact ⟨j, hj, by rw [hwfk row hr]; exact colIndexOf_lt_length hj⟩
    have hNne : (sk.filter (rowMatchesB w cond value)).length ≠ 0 := by
      simpa [List.length_eq_zero] using hnem
    rw [selectQuery, hscan0]
    dsimp only
    rw [selectWaitLoop_skip csv.columns (selectCols csv colNames) w cond value
      pre (sk :: post) "" hpre]
    rw [selectWaitLoop.eq_def]
    simp only [beq_self_eq_true, Bool.and_true, if_true]
    rw [selectRowProcess_ok ⟨csv.columns, sk⟩ (selectCols csv colNames) w cond value
      sk "" 0 hwk hpk]
    dsimp only
    rw [selectWaitLoop.eq_def]
    simp [hNne, String.empty_append, Nat.zero_add]

/-- Witness for claim C3: with one non-matching row, the waiting select stays
pending over an empty wakeup trace, and returns exactly the matching row of
the first wakeup state that contains one. -/
theorem selectQuery_wait_semantics_witness :
    selectQuery (CSV.mk ["Name", "Age"] [Row.mk ["Bob", "25"]]) true ["Name"] 1 ">" "26" []
      = none
    ∧ selectQuery (CSV.mk ["Name", "Age"] [Row.mk ["Bob", "25"]]) true ["Name"] 1 ">" "26"
        [[Row.mk ["Alice", "30"], Row.mk ["Bob", "25"]]] =
      some (Except.ok "Name\nAlice\n1 row(s) selected.\n") := by
  have h := selectQuery_wait_semantics (CSV.mk ["Name", "Age"] [Row.mk ["Bob", "25"]])
    ["Name"] 1 ">" "26" (by decide) (by decide)
    ⟨by decide, by
      intro row hr
      fin_cases hr
      exact ⟨false, rfl⟩⟩
    (by decide)
  constructor
  · exact h.1 [] (by simp)
  · have h2 := h.2 [] [Row.mk ["Alice", "30"], Row.mk ["Bob", "25"]] [] (by simp)
      ⟨by decide, by
        intro row hr
        fin_cases hr
        · exact ⟨true, rfl⟩
        · exact ⟨false, rfl⟩⟩
      (by decide)
    exact h2.trans (by rfl)

/-- Witness for claim C10 at concrete inputs: a leading star expands to the
header, a trailing star does not and is an unknown column of this header. -/
theorem wildcard_first_only_witness :
    selectCols (CSV.mk ["A"] []) ["*"] = ["A"]
    ∧ selectCols (CSV.mk ["A"] []) ["A", "*"] = ["A", "*"]
    ∧ CSV.getColumnIndex (CSV.mk ["A"] []) "*" = Except.error (Err.invalidColumn "*") :=
  ⟨wildcard_first_only.1 (CSV.mk ["A"] []) ["*"] rfl,
   wildcard_first_only.2.1 (CSV.mk ["A"] []) ["A", "*"] "A" rfl (by decide),
   wildcard_first_only.2.2.1 (CSV.mk ["A"] []) rfl⟩

/-! Helper lemmas about cell assignment in updateRowProcess. -/

theorem get?_set_self {α : Type} (l : List α) (i : Nat) (a : α) (h : i < l.length) :
    (l.set i a).get? i = some a := by
  simp [List.get?_eq_getElem?, List.getElem?_set_self h]

theorem get?_set_ne {α : Type} (l : List α) (i j : Nat) (a : α) (h : i ≠ j) :
    (l.set i a).get? j = l.get? j := by
  simp [List.get?_eq_getElem?, List.getElem?_set_ne h]

theorem setCells_length (columns : List String) :
    ∀ (cns vs cells : List String),
    ((setCells columns cells cns vs).1).length = cells.length := by
  intro cns
  induction cns with
  | nil => intro vs cells; rfl
  | cons c cs ih =>
    intro vs cells
    cases vs with
    | nil => rfl
    | cons v vs2 =>
      cases hc : colIndexOf c columns with
      | none => simp [setCells, hc]
      | some j =>
        by_cases hj : j < cells.length
        · simp only [setCells]
          rw [hc]
          dsimp only
          rw [if_pos hj, ih vs2 (cells.set j v), List.length_set]
        · simp only [setCells]
          rw [hc]
          dsimp only
          rw [if_neg hj]

theorem setCells_ok (columns : List String) :
    ∀ (cns vs cells : List String),
    (∀ c ∈ cns, ∃ j, colIndexOf c columns = some j) →
    cns.length ≤ vs.length →
    columns.length ≤ cells.length →
    (setCells columns cells cns vs).2 = none := by
  intro cns
  induction cns with
  | nil => intro vs cells h1 h2 h3; rfl
  | cons c cs ih =>
    intro vs cells h1 h2 h3
    cases vs with
    | nil => simp at h2
    | cons v vs2 =>
      obtain ⟨j, hj⟩ := h1 c (by simp)
      have hjlt : j < cells.length := Nat.lt_of_lt_of_le (colIndexOf_lt_length hj) h3
      simp only [setCells]
      rw [hj]
      dsimp only
      rw [if_pos hjlt]
      exact ih vs2 (cells.set j v) (fun c2 hc2 => h1 c2 (by simp [hc2])) (by simpa using h2)
        (by rw [List.length_set]; exact h3)

theorem setCells_untouched (columns : List String) :
    ∀ (cns vs cells : List String) (j : Nat),
    (∀ c ∈ cns, colIndexOf c columns ≠ some j) →
    ((setCells columns cells cns vs).1).get? j = cells.get? j := by
  intro cns
  induction cns with
  | nil => intro vs cells j h; rfl
  | cons c cs ih =>
    intro vs cells j h
    cases vs with
    | nil => rfl
    | cons v vs2 =>
      cases hc : colIndexOf c columns with
      | none => simp [setCells, hc]
      | some j2 =>
        have hne : j2 ≠ j := fun he => h c (by simp) (he ▸ hc)
        by_cases hlt : j2 < cells.length
        · simp only [setCells]
          rw [hc]
          dsimp only
          rw [if_pos hlt, ih vs2 (cells.set j2 v) j (fun c2 hc2 => h c2 (by simp [hc2]))]
          exact get?_set_ne cells j2 j v hne
        · simp only [setCells]
          rw [hc]
          dsimp only
          rw [if_neg hlt]

theorem setCells_get_mem (columns : List String) :
    ∀ (cns vs cells : List String) (k : Nat) (c v : String) (j : Nat),
    cns.Nodup →
    cns.get? k = some c → vs.get? k = some v →
    colIndexOf c columns = some j →
    columns.length ≤ cells.length →
    (∀ c2 ∈ cns, ∃ j2, colIndexOf c2 columns = some j2) →
    cns.length ≤ vs.length →
    ((setCells columns cells cns vs).1).get? j = some v := by
  intro cns
  induction cns with
  | nil => intro vs cells k c v j _ hk; simp at hk
  | cons c0 cs ih =>
    intro vs cells k c v j hnd hk hvk hj hlen hall hvs
    cases vs with
    | nil => simp at hvs
    | cons v0 vs2 =>
      obtain ⟨j0, hj0⟩ := hall c0 (by simp)
      have hj0lt : j0 < cells.length := Nat.lt_of_lt_of_le (colIndexOf_lt_length hj0) hlen
      simp only [setCells]
      rw [hj0]
      dsimp only
      rw [if_pos hj0lt]
      cases k with
      | zero =>
        have hc : c0 = c := by simpa using hk
        have hv : v0 = v := by simpa using hvk
        subst hc
        subst hv
        have hjj : j0 = j := by
          have := hj0.symm.trans hj
          injection this
        subst hjj
        rw [setCells_untouched columns cs vs2 (cells.set j0 v0) j0 ?_]
        · exact get?_set_self cells j0 v0 hj0lt
        · intro c2 hc2 hcon
          have h1 := colIndexOf_get hcon
          have h2 := colIndexOf_get hj0
          rw [h1] at h2
          injection h2 with h2
          exact absurd (h2 ▸ hc2) ((List.nodup_cons.mp hnd).1)
      | succ k2 =>
        exact ih vs2 (cells.set j0 v0) k2 c v j ((List.nodup_cons.mp hnd).2)
          (by simpa using hk) (by simpa using hvk) hj
          (by rw [List.length_set]; exact hlen)
          (fun c2 hc2 => hall c2 (by simp [hc2])) (by simpa using hvs)

theorem setCells_err (columns : List String) :
    ∀ (cns vs cells : List String),
    (∃ c ∈ cns, colIndexOf c columns = none) →
    cns.length ≤ vs.length →
    columns.length ≤ cells.length →
    ∃ c2, (setCells columns cells cns vs).2 = some (Err.invalidColumn c2)
      ∧ colIndexOf c2 columns = none := by
  intro cns
  induction cns with
  | nil => intro vs cells hbad _ _; simp at hbad
  | cons c cs ih =>
    intro vs cells hbad hlen hcl
    cases vs with
    | nil => simp at hlen
    | cons v vs2 =>
      cases hc : colIndexOf c columns with
      | none =>
        refine ⟨c, ?_, hc⟩
        simp [setCells, hc]
      | some j =>
        have hbad2 : ∃ c2 ∈ cs, colIndexOf c2 columns = none := by
          obtain ⟨c2, hm, hn⟩ := hbad
          rcases List.mem_cons.mp hm with he | hm2
          · exact absurd (he ▸ hn) (by simp [hc])
          · exact ⟨c2, hm2, hn⟩
        have hjlt : j < cells.length := Nat.lt_of_lt_of_le (colIndexOf_lt_length hc) hcl
        simp only [setCells]
        rw [hc]
        dsimp only
        rw [if_pos hjlt]
        exact ih vs2 (cells.set j v) hbad2 (by simpa using hlen)
          (by rw [List.length_set]; exact hcl)

/-! Helper lemmas about the scan of updateRowProcess. -/

theorem updateRows_ok (columns : List String) (cns vs : List String) (w : Int)
    (cond value : String)
    (hcols : ∀ c ∈ cns, ∃ j, colIndexOf c columns = some j)
    (hvs : cns.length ≤ vs.length) :
    ∀ (rows : List Row) (count : Nat),
    (∀ row ∈ rows, ∃ b, rowMatches w cond value row = Except.ok b) →
    (∀ row ∈ rows, columns.length ≤ row.cells.length) →
    updateRows columns cns vs w cond value rows count =
      (rows.map (fun row => if rowMatchesB w cond value row
          then Row.mk (setCells columns row.cells cns vs).1 else row),
        count + (rows.filter (rowMatchesB w cond value)).length, none) := by
  intro rows
  induction rows with
  | nil => intro count hw hwf; simp [updateRows]
  | cons row rest ih =>
    intro count hw hwf
    obtain ⟨b, hb⟩ := hw row (by simp)
    have hB : rowMatchesB w cond value row = b := by simp [rowMatchesB, hb]
    cases b with
    | false =>
      rw [updateRows, hb]
      dsimp only
      rw [ih count (fun r hr => hw r (by simp [hr])) (fun r hr => hwf r (by simp [hr]))]
      simp [List.filter_cons, hB]
    | true =>
      have hnone := setCells_ok columns cns vs row.cells hcols hvs (hwf row (by simp))
      cases hsc : setCells columns row.cells cns vs with
      | mk cells2 err =>
        rw [hsc] at hnone
        subst hnone
        rw [updateRows, hb]
        dsimp only
        rw [hsc]
        dsimp only
        rw [ih (count + 1) (fun r hr => hw r (by simp [hr])) (fun r hr => hwf r (by simp [hr]))]
        simp only [List.map_cons, List.filter_cons, hB, if_true, List.length_cons, hsc,
          Prod.mk.injEq]
        exact ⟨trivial, by omega, trivial⟩

theorem updateRows_nomatch (columns cns vs : List String) (w : Int) (cond value : String) :
    ∀ (rows : List Row) (count : Nat),
    (∀ row ∈ rows, rowMatches w cond value row = Except.ok false) →
    updateRows columns cns vs w cond value rows count = (rows, count, none) := by
  intro rows
  induction rows with
  | nil => intro count h; rfl
  | cons row rest ih =>
    intro count h
    rw [updateRows, h row (by simp)]
    dsimp only
    rw [ih count (fun r hr => h r (by simp [hr]))]

theorem updateRows_err (columns cns vs : List String) (w : Int) (cond value : String)
    (hvs : cns.length ≤ vs.length)
    (hbad : ∃ c ∈ cns, colIndexOf c columns = none) :
    ∀ (rows : List Row) (count : Nat),
    (∀ row ∈ rows, ∃ b, rowMatches w cond value row = Except.ok b) →
    (∀ row ∈ rows, columns.length ≤ row.cells.length) →
    rows.filter (rowMatchesB w cond value) ≠ [] →
    ∃ rows2 c2, updateRows columns cns vs w cond value rows count =
        (rows2, count, some (Err.invalidColumn c2)) ∧ colIndexOf c2 columns = none := by
  intro rows
  induction rows with
  | nil => intro count _ _ hne; simp at hne
  | cons row rest ih =>
    intro count hw hwf hne
    obtain ⟨b, hb⟩ := hw row (by simp)
    have hB : rowMatchesB w cond value row = b := by simp [rowMatchesB, hb]
    cases b with
    | true =>
      obtain ⟨c2, hc2, hc2n⟩ := setCells_err columns cns vs row.cells hbad hvs
        (hwf row (by simp))
      cases hsc : setCells columns row.cells cns vs with
      | mk cells2 err =>
        rw [hsc] at hc2
        subst hc2
        refine ⟨Row.mk cells2 :: rest, c2, ?_, hc2n⟩
        rw [updateRows, hb]
        dsimp only
        rw [hsc]
    | false =>
      have hne2 : rest.filter (rowMatchesB w cond value) ≠ [] := by
        simpa [List.filter_cons, hB] using hne
      obtain ⟨rows2, c2, hupd, hc2n⟩ := ih count (fun r hr => hw r (by simp [hr]))
        (fun r hr => hwf r (by simp [hr])) hne2
      refine ⟨row :: rows2, c2, ?_, hc2n⟩
      rw [updateRows, hb]
      dsimp only
      rw [hupd]

/-- The run of updateQuery without waiting on a query whose set columns all
resolve: shared closed form used by the frame and notification theorems. -/
theorem updateQuery_nowait_run (csv : CSV) (cns vs : List String) (w : Int)
    (cond value : String)
    (hready : scanReady csv.columns w cond value csv.rows)
    (hcols : ∀ c ∈ cns, ∃ j, colIndexOf c csv.columns = some j)
    (hvs : cns.length ≤ vs.length) :
    updateQuery csv false cns vs w cond value [] =
      some (csv.rows.map (fun row => if rowMatchesB w cond value row
          then Row.mk (setCells csv.columns row.cells cns vs).1 else row),
        (if (csv.rows.filter (rowMatchesB w cond value)).length != 0
          then [Event.notifyAll] else []),
        Except.ok (toString (csv.rows.filter (rowMatchesB w cond value)).length
          ++ " row(s) updated.\n")) := by
  rw [updateQuery]
  rw [updateRows_ok csv.columns cns vs w cond value hcols hvs csv.rows 0 hready.2
    (fun row hr => le_of_eq (hready.1 row hr).symm)]
  rw [updateWaitLoop.eq_def]
  simp [Nat.zero_add, Bool.and_false]

/-! Helper lemmas about the error paths of the select scan. -/

theorem projectCells_err (csv : CSV) (row : Row)
    (hlen : csv.columns.length ≤ row.cells.length) :
    ∀ (cols : List String) (acc delim : String),
    (∃ c ∈ cols, colIndexOf c csv.columns = none) →
    ∃ c2, projectCells csv row cols acc delim = Except.error (Err.invalidColumn c2)
      ∧ colIndexOf c2 csv.columns = none := by
  intro cols
  induction cols with
  | nil => intro acc delim hbad; simp at hbad
  | cons c cs ih =>
    intro acc delim hbad
    cases hc : colIndexOf c csv.columns with
    | none =>
      refine ⟨c, ?_, hc⟩
      rw [projectCells, CSV.getColumnIndex, hc]
    | some j =>
      have hjlt : j < row.cells.length := Nat.lt_of_lt_of_le (colIndexOf_lt_length hc) hlen
      have hget : row.cells.get? j = some (row.cells.getD j "") := get?_getD row.cells j "" hjlt
      have hbad2 : ∃ c2 ∈ cs, colIndexOf c2 csv.columns = none := by
        obtain ⟨c2, hm, hn⟩ := hbad
        rcases List.mem_cons.mp hm with he | hm2
        · exact absurd (he ▸ hn) (by simp [hc])
        · exact ⟨c2, hm2, hn⟩
      rw [projectCells, CSV.getColumnIndex, hc]
      dsimp only
      rw [Row.at, hget]
      dsimp only
      exact ih (acc ++ (delim ++ row.cells.getD j "")) "\t" hbad2

theorem selectRowProcess_err (csv : CSV) (cols : List String) (w : Int) (cond value : String)
    (hbad : ∃ c ∈ cols, colIndexOf c csv.columns = none) :
    ∀ (rows : List Row) (text : String) (count : Nat),
    (∀ row ∈ rows, row.cells.length = csv.columns.length) →
    (∀ row ∈ rows, ∃ b, rowMatches w cond value row = Except.ok b) →
    rows.filter (rowMatchesB w cond value) ≠ [] →
    ∃ c2, selectRowProcess csv cols w cond value rows text count =
        Except.error (Err.invalidColumn c2) ∧ colIndexOf c2 csv.columns = none := by
  intro rows
  induction rows with
  | nil => intro text count _ _ hne; simp at hne
  | cons row rest ih =>
    intro text count hwf hw hne
    obtain ⟨b, hb⟩ := hw row (by simp)
    have hB : rowMatchesB w cond value row = b := by simp [rowMatchesB, hb]
    cases b with
    | true =>
      obtain ⟨c2, hproj, hc2⟩ := projectCells_err csv row
        (le_of_eq (hwf row (by simp)).symm) cols "" "" hbad
      refine ⟨c2, ?_, hc2⟩
      rw [selectRowProcess, hb]
      dsimp only
      rw [hproj]
    | false =>
      have hne2 : rest.filter (rowMatchesB w cond value) ≠ [] := by
        simpa [List.filter_cons, hB] using hne
      obtain ⟨c2, hrun, hc2⟩ := ih text count (fun r hr => hwf r (by simp [hr]))
        (fun r hr => hw r (by simp [hr])) hne2
      refine ⟨c2, ?_, hc2⟩
      rw [selectRowProcess, hb]
      dsimp only
      exact hrun

/-! Helper lemma about the events of the update wait loop. -/

theorem updateWaitLoop_events (columns cns vs : List String) (w : Int)
    (cond value : String) (mustWait : Bool) :
    ∀ (wakeups : List (List Row)) (rows : List Row) (count : Nat)
      (rows2 : List Row) (ev : List Event) (res : Except Err String),
    updateWaitLoop columns cns vs w cond value mustWait wakeups rows count =
      some (rows2, ev, res) →
    (∀ e, res = Except.error e → ev = [])
    ∧ (∀ out, res = Except.ok out → ∃ n, out = toString n ++ " row(s) updated.\n"
        ∧ ev = (if n != 0 then [Event.notifyAll] else [])) := by
  intro wakeups
  induction wakeups with
  | nil =>
    intro rows count rows2 ev res h
    rw [updateWaitLoop.eq_def] at h
    try dsimp only at h
    by_cases hc : (count == 0 && mustWait) = true
    · rw [if_pos hc] at h
      exact absurd h (by simp)
    · rw [if_neg hc] at h
      injection h with h
      have hev : ev = (if count != 0 then [Event.notifyAll] else []) :=
        (congrArg (fun t => t.2.1) h).symm
      have hres : res = Except.ok (toString count ++ " row(s) updated.\n") :=
        (congrArg (fun t => t.2.2) h).symm
      constructor
      · intro e he
        rw [hres] at he
        exact absurd he (by simp)
      · intro out hout
        rw [hres] at hout
        injection hout with hout
        exact ⟨count, hout.symm, hev⟩
  | cons s rest ih =>
    intro rows count rows2 ev res h
    rw [updateWaitLoop.eq_def] at h
    try dsimp only at h
    by_cases hc : (count == 0 && mustWait) = true
    · rw [if_pos hc] at h
      try dsimp only at h
      cases hur : (updateRows columns cns vs w cond value s count).2.2 with
      | some e =>
        rw [hur] at h
        try dsimp only at h
        injection h with h
        have hev : ev = [] := (congrArg (fun t => t.2.1) h).symm
        have hres : res = Except.error e := (congrArg (fun t => t.2.2) h).symm
        constructor
        · intro e2 _
          exact hev
        · intro out hout
          rw [hres] at hout
          exact absurd hout (by simp)
      | none =>
        rw [hur] at h
        try dsimp only at h
        exact ih (updateRows columns cns vs w cond value s count).1
          (updateRows columns cns vs w cond value s count).2.1 rows2 ev res h
    · rw [if_neg hc] at h
      injection h with h
      have hev : ev = (if count != 0 then [Event.notifyAll] else []) :=
        (congrArg (fun t => t.2.1) h).symm
      have hres : res = Except.ok (toString count ++ " row(s) updated.\n") :=
        (congrArg (fun t => t.2.2) h).symm
      constructor
      · intro e he
        rw [hres] at he
        exact absurd he (by simp)
      · intro out hout
        rw [hres] at hout
        injection hout with hout
        exact ⟨count, hout.symm, hev⟩

/-- Claim C2: for every table, set columns and values, and optional where
clause, updateQuery (completing without waiting) writes the given new values
only into the set-column cells of the rows satisfying the predicate, leaves
every cell of every non-matching row byte-identical, leaves even the
non-set-column cells of matching rows byte-identical, and emits exactly one
count line with the number of matching rows. -/
theorem updateQuery_frame (csv : CSV) (colNames values : List String) (w : Int)
    (cond value : String)
    (hready : scanReady csv.columns w cond value csv.rows)
    (hnodup : colNames.Nodup)
    (hcols : ∀ c ∈ colNames, ∃ j, colIndexOf c csv.columns = some j)
    (hvals : colNames.length ≤ values.length) :
    ∃ rows2,
      updateQuery csv false colNames values w cond value [] =
        some (rows2,
          (if (csv.rows.filter (rowMatchesB w cond value)).length != 0
            then [Event.notifyAll] else []),
          Except.ok (toString (csv.rows.filter (rowMatchesB w cond value)).length
            ++ " row(s) updated.\n"))
      ∧ rows2.length = csv.rows.length
      ∧ (∀ i row, csv.rows.get? i = some row → rowMatchesB w cond value row = false →
          rows2.get? i = some row)
      ∧ (∀ i row, csv.rows.get? i = some row → rowMatchesB w cond value row = true →
          ∃ row2, rows2.get? i = some row2
            ∧ row2.cells.length = row.cells.length
            ∧ (∀ k c v j, colNames.get? k = some c → values.get? k = some v →
                colIndexOf c csv.columns = some j → row2.cells.get? j = some v)
            ∧ (∀ j, (∀ c ∈ colNames, colIndexOf c csv.columns ≠ some j) →
                row2.cells.get? j = row.cells.get? j)) := by
  refine ⟨csv.rows.map (fun row => if rowMatchesB w cond value row
      then Row.mk (setCells csv.columns row.cells colNames values).1 else row),
    updateQuery_nowait_run csv colNames values w cond value hready hcols hvals,
    by simp, ?_, ?_⟩
  · intro i row hget hfalse
    rw [List.get?_map, hget]
    simp [hfalse]
  · intro i row hget htrue
    have hmem : row ∈ csv.rows := List.get?_mem hget
    have hlen : csv.columns.length ≤ row.cells.length := le_of_eq (hready.1 row hmem).symm
    refine ⟨Row.mk (setCells csv.columns row.cells colNames values).1, ?_, ?_, ?_, ?_⟩
    · rw [List.get?_map, hget]
      simp [htrue]
    · exact setCells_length csv.columns colNames values row.cells
    · intro k c v j hk hvk hj
      exact setCells_get_mem csv.columns colNames values row.cells k c v j hnodup
        hk hvk hj hlen hcols hvals
    · intro j hnone
      exact setCells_untouched csv.columns colNames values row.cells j hnone

/-- Witness for claim C2: the worked update of spec section 8, writing Age 31
into Alice's row only. -/
theorem updateQuery_frame_witness :
    ∃ rows2,
      updateQuery (CSV.mk ["Name", "Age"] [Row.mk ["Alice", "30"], Row.mk ["Bob", "25"]])
          false ["Age"] ["31"] 0 "==" "Alice" [] =
        some (rows2, [Event.notifyAll], Except.ok "1 row(s) updated.\n")
      ∧ rows2.get? 1 = some (Row.mk ["Bob", "25"]) := by
  obtain ⟨rows2, hrun, _, hframe, _⟩ := updateQuery_frame
    (CSV.mk ["Name", "Age"] [Row.mk ["Alice", "30"], Row.mk ["Bob", "25"]])
    ["Age"] ["31"] 0 "==" "Alice"
    ⟨by decide, by
      intro row hr
      fin_cases hr
      · exact ⟨true, rfl⟩
      · exact ⟨false, rfl⟩⟩
    (by decide)
    (by
      intro c hc
      fin_cases hc
      exact ⟨1, rfl⟩)
    (by decide)
  exact ⟨rows2, hrun.trans (by rfl), hframe 1 (Row.mk ["Bob", "25"]) rfl rfl⟩

/-- Claim C4: updateQuery signals all waiters with one notify_all broadcast
(never a single wake) exactly when the completed call has counted at least one
updated row: without waiting, the broadcast happens exactly when at least one
row matches the predicate; in full generality every returning call with a
successful count line of n rows broadcasts exactly when n is nonzero, and a
call that throws signals nobody. -/
theorem updateQuery_notify_iff :
    (∀ (csv : CSV) (colNames values : List String) (w : Int) (cond value : String),
      scanReady csv.columns w cond value csv.rows →
      (∀ c ∈ colNames, ∃ j, colIndexOf c csv.columns = some j) →
      colNames.length ≤ values.length →
      updateQuery csv false colNames values w cond value [] =
        some (csv.rows.map (fun row => if rowMatchesB w cond value row
            then Row.mk (setCells csv.columns row.cells colNames values).1 else row),
          (if (csv.rows.filter (rowMatchesB w cond value)).length != 0
            then [Event.notifyAll] else []),
          Except.ok (toString (csv.rows.filter (rowMatchesB w cond value)).length
            ++ " row(s) updated.\n")))
    ∧ (∀ (csv : CSV) (mw : Bool) (colNames values : List String) (w : Int)
        (cond value : String) (tr : List (List Row)) (rows2 : List Row)
        (ev : List Event) (res : Except Err String),
      updateQuery csv mw colNames values w cond value tr = some (rows2, ev, res) →
      (∀ e, res = Except.error e → ev = [])
      ∧ (∀ out, res = Except.ok out → ∃ n, out = toString n ++ " row(s) updated.\n"
          ∧ ev = (if n != 0 then [Event.notifyAll] else []))) := by
  constructor
  · intro csv colNames values w cond value hready hcols hvals
    exact updateQuery_nowait_run csv colNames values w cond value hready hcols hvals
  · intro csv mw colNames values w cond value tr rows2 ev res h
    rw [updateQuery] at h
    cases hur : (updateRows csv.columns colNames values w cond value csv.rows 0).2.2 with
    | some e =>
      rw [hur] at h
      dsimp only at h
      injection h with h
      have hev : ev = [] := (congrArg (fun t => t.2.1) h).symm
      have hres : res = Except.error e := (congrArg (fun t => t.2.2) h).symm
      constructor
      · intro e2 _
        exact hev
      · intro out hout
        rw [hres] at hout
        exact absurd hout (by simp)
    | none =>
      rw [hur] at h
      dsimp only at h
      exact updateWaitLoop_events csv.columns colNames values w cond value mw tr
        (updateRows csv.columns colNames values w cond value csv.rows 0).1
        (updateRows csv.columns colNames values w cond value csv.rows 0).2.1
        rows2 ev res h

/-- Witness for claim C4: a matching update broadcasts, a non-matching one
stays silent, and the count-line characterisation holds at the broadcast. -/
theorem updateQuery_notify_iff_witness :
    updateQuery (CSV.mk ["Name", "Age"] [Row.mk ["Alice", "30"]])
        false ["Age"] ["31"] 0 "==" "Zed" [] =
      some ([Row.mk ["Alice", "30"]], [], Except.ok "0 row(s) updated.\n")
    ∧ (∃ n, "1 row(s) updated.\n" = toString n ++ " row(s) updated.\n"
        ∧ [Event.notifyAll] = (if n != 0 then [Event.notifyAll] else [])) := by
  constructor
  · have h := updateQuery_notify_iff.1 (CSV.mk ["Name", "Age"] [Row.mk ["Alice", "30"]])
      ["Age"] ["31"] 0 "==" "Zed"
      ⟨by decide, by
        intro row hr
        fin_cases hr
        exact ⟨false, rfl⟩⟩
      (by
        intro c hc
        fin_cases hc
        exact ⟨1, rfl⟩)
      (by decide)
    exact h.trans (by rfl)
  · have h := (updateQuery_notify_iff.2 (CSV.mk ["Name", "Age"] [Row.mk ["Alice", "30"]])
      false ["Age"] ["31"] 0 "==" "Alice" [] [Row.mk ["Alice", "31"]] [Event.notifyAll]
      (Except.ok "1 row(s) updated.\n") rfl).2 "1 row(s) updated.\n" rfl
    exact h

/-- Claim C8 counterexample: a select whose projection names the unknown
column Bogus completes normally with a zero count (no InvalidColumn signal)
when no row matches the where clause, because column names are only resolved
per matching row; and an update naming a valid column before an unknown one
leaves the valid column of the matching row already rewritten when the
InvalidColumn error is thrown — the table state shows the incomplete update. -/
theorem invalidColumn_counterexample :
    selectQuery ⟨["A"], [Row.mk ["x"]]⟩ false ["Bogus"] 0 "==" "zzz" [] =
      some (Except.ok "0 row(s) selected.\n")
    ∧ updateQuery ⟨["A", "B"], [Row.mk ["x", "y"]]⟩ false ["A", "Bogus"] ["1", "2"]
        (-1) "" "" [] =
      some ([Row.mk ["1", "y"]], [], Except.error (Err.invalidColumn "Bogus"))
    ∧ colIndexOf "Bogus" ["A"] = none
    ∧ Row.mk ["1", "y"] ≠ Row.mk ["x", "y"] :=
  ⟨rfl, rfl, rfl, by decide⟩

/-- Claim C8 amended: an unknown column in the projection or set list is only
detected while processing a row that satisfies the where clause. When at least
one row matches, the query signals InvalidColumn naming an unknown column; a
failing select emits no output at all (so no incomplete projection is ever
written), while a failing update throws with no output and no broadcast but
may leave cells of the first matching row that were assigned before the
unknown column reference already rewritten. When zero rows match, no column of
the projection or set list is resolved at all and the query completes
normally with a zero count line. -/
theorem invalidColumn_amended :
    (∀ (csv : CSV) (colNames : List String) (w : Int) (cond value : String)
        (mw : Bool) (tr : List (List Row)),
      scanReady csv.columns w cond value csv.rows →
      (∃ c ∈ selectCols csv colNames, colIndexOf c csv.columns = none) →
      csv.rows.filter (rowMatchesB w cond value) ≠ [] →
      ∃ c2, selectQuery csv mw colNames w cond value tr =
          some (Except.error (Err.invalidColumn c2)) ∧ colIndexOf c2 csv.columns = none)
    ∧ (∀ (csv : CSV) (colNames : List String) (w : Int) (cond value : String)
        (tr : List (List Row)),
      (∀ row ∈ csv.rows, ∃ b, rowMatches w cond value row = Except.ok b) →
      csv.rows.filter (rowMatchesB w cond value) = [] →
      selectQuery csv false colNames w cond value tr =
        some (Except.ok "0 row(s) selected.\n"))
    ∧ (∀ (csv : CSV) (colNames values : List String) (w : Int) (cond value : String)
        (tr : List (List Row)),
      (∀ row ∈ csv.rows, ∃ b, rowMatches w cond value row = Except.ok b) →
      csv.rows.filter (rowMatchesB w cond value) = [] →
      updateQuery csv false colNames values w cond value tr =
        some (csv.rows, [], Except.ok "0 row(s) updated.\n"))
    ∧ (∀ (csv : CSV) (colNames values : List String) (w : Int) (cond value : String)
        (mw : Bool) (tr : List (List Row)),
      scanReady csv.columns w cond value csv.rows →
      (∃ c ∈ colNames, colIndexOf c csv.columns = none) →
      colNames.length ≤ values.length →
      csv.rows.filter (rowMatchesB w cond value) ≠ [] →
      ∃ rows2 c2, updateQuery csv mw colNames values w cond value tr =
          some (rows2, [], Except.error (Err.invalidColumn c2))
        ∧ colIndexOf c2 csv.columns = none) := by
  refine ⟨?_, ?_, ?_, ?_⟩
  · intro csv colNames w cond value mw tr hready hbad hne
    obtain ⟨c2, hscan, hc2⟩ := selectRowProcess_err csv (selectCols csv colNames) w cond value
      hbad csv.rows "" 0 hready.1 hready.2 hne
    refine ⟨c2, ?_, hc2⟩
    rw [selectQuery, hscan]
  · intro csv colNames w cond value tr hw h0
    have hp0 : ∀ row ∈ csv.rows, rowMatchesB w cond value row = true →
        projectCells csv row (selectCols csv colNames) "" "" =
          Except.ok (projLine csv.columns (selectCols csv colNames) row) := by
      intro row hr hm
      exact absurd hm (by simpa using List.filter_eq_nil_iff.mp h0 row hr)
    rw [selectQuery,
      selectRowProcess_ok csv (selectCols csv colNames) w cond value csv.rows "" 0 hw hp0, h0]
    dsimp only
    rw [selectWaitLoop.eq_def]
    rfl
  · intro csv colNames values w cond value tr hw h0
    have hall : ∀ row ∈ csv.rows, rowMatches w cond value row = Except.ok false := by
      intro row hr
      obtain ⟨b, hb⟩ := hw row hr
      have hB : rowMatchesB w cond value row = b := by simp [rowMatchesB, hb]
      have hf : rowMatchesB w cond value row = false := by
        simpa using List.filter_eq_nil_iff.mp h0 row hr
      rw [hB] at hf
      rw [hf] at hb
      exact hb
    rw [updateQuery]
    rw [updateRows_nomatch csv.columns colNames values w cond value csv.rows 0 hall]
    dsimp only
    rw [updateWaitLoop.eq_def]
    rfl
  · intro csv colNames values w cond value mw tr hready hbad hvals hne
    obtain ⟨rows2, c2, hupd, hc2⟩ := updateRows_err csv.columns colNames values w cond value
      hvals hbad csv.rows 0 hready.2 (fun row hr => le_of_eq (hready.1 row hr).symm) hne
    refine ⟨rows2, c2, ?_, hc2⟩
    rw [updateQuery]
    rw [hupd]

/-- Witness for claim C8 amended: a select projecting the unknown column Bogus
over a table whose single row matches signals InvalidColumn naming Bogus. -/
theorem invalidColumn_amended_witness :
    ∃ c2, selectQuery ⟨["A"], [Row.mk ["x"]]⟩ false ["Bogus"] 0 "==" "x" [] =
        some (Except.error (Err.invalidColumn c2))
      ∧ colIndexOf c2 (["A"] : List String) = none :=
  invalidColumn_amended.1 ⟨["A"], [Row.mk ["x"]]⟩ ["Bogus"] 0 "==" "x" false []
    ⟨by decide, by
      intro row hr
      fin_cases hr
      exact ⟨true, rfl⟩⟩
    ⟨"Bogus", by decide, rfl⟩ (by decide)

end SQLAir
